import Mathlib

set_option maxRecDepth 100000

/-!
Shallow embedding of `src/code/Functions.py` (Spotify playlist analysis).

The two core functions are modelled as pure Lean functions over explicit
oracles standing for the network collaborators:

* `search_playlists` — multi-variant playlist search with filtering,
  follower enrichment, deduplication and ranking;
* `get_track_genres` — batched artist-genre resolution for a playlist's
  track list, including the HTTP 429 handling of the batch loop.

JSON dictionaries are modelled as structures with `Option` fields for
possibly-missing keys; fallible collaborator calls are oracles returning
`Option` values.
-/

namespace SpotifyModel

/-! ### String helpers: substring search and the word-boundary regex

The Python code uses `re.search(rf'\b{term}\b', name, re.IGNORECASE)` and
`"setlist" in name.lower()`.  Both are modelled over lists of characters.
Word characters follow the regex `\w` class (ASCII letters, digits,
underscore), which is what matters for the alphabetic search terms used
by the program. -/

def isWordChar (c : Char) : Bool :=
  c.isAlphanum || c == '_'

/-- Lowering of one string, character by character (`str.lower()` /
`re.IGNORECASE` on the ASCII range relevant here); structurally
recursive so that concrete runs evaluate inside the kernel. -/
def strLower (s : String) : String :=
  ⟨s.data.map Char.toLower⟩

/-- Does `s` start with the word `term`, followed by a word boundary
(end of string or a non-word character)?  `term` is assumed non-empty
and made of word characters, as all the program's terms are. -/
def startsWithWordAux : List Char → List Char → Bool
  | [], [] => true
  | [], c :: _ => !isWordChar c
  | _ :: _, [] => false
  | t :: ts, c :: cs => t == c && startsWithWordAux ts cs

/-- Scan of `re.search(r'\b term \b', s)` over lowered characters: looks
for an occurrence of `term` preceded by a word boundary (`prev` records
whether the previous character was a word character) and followed by a
word boundary. -/
def wordSearchAux (term : List Char) : List Char → Bool → Bool
  | [], prev => !prev && startsWithWordAux term []
  | c :: cs, prev =>
    (!prev && startsWithWordAux term (c :: cs)) || wordSearchAux term cs (isWordChar c)

/-- Model of `re.search(rf'\b{term}\b', name, re.IGNORECASE) is not None`. -/
def regexWordSearch (term name : String) : Bool :=
  wordSearchAux (strLower term).data (strLower name).data false

/-- Does `s` start with `pat`? -/
def startsWith : List Char → List Char → Bool
  | [], _ => true
  | _ :: _, [] => false
  | p :: ps, c :: cs => p == c && startsWith ps cs

/-- Model of the Python substring test `pat in s`. -/
def hasSubstr (pat : List Char) : List Char → Bool
  | [] => startsWith pat []
  | c :: cs => startsWith pat (c :: cs) || hasSubstr pat cs

/-! ### Data model for `search_playlists`

A raw playlist record from one search response.  Each `Option` layer is
one possibly-missing JSON key: `tracks = some t` means the `"tracks"` key
is present and its `"total"` sub-key holds `t` (itself optional);
`ownerId` is `owner.id` when both keys are present; a missing `id` key
makes `playlist["id"]` raise, which the per-record handler catches. -/
structure RawPlaylist where
  name : Option String
  tracks : Option (Option Int)
  ownerId : Option String
  id : Option String
deriving Repr, DecidableEq

/-- Line 50: `time_periods = ["morning", "afternoon", "evening", "night"]`. -/
def time_periods : List String := ["morning", "afternoon", "evening", "night"]

/-- Line 51: `[term for term in time_periods if term.lower() != query.lower()]`. -/
def excluded_terms (query : String) : List String :=
  time_periods.filter (fun term => strLower term != strLower query)

/-- Line 95: the excluded-terms rejection rule — does any excluded term
occur in the playlist name as a whole word, case-insensitively? -/
def nameHasExcludedTerm (query name : String) : Bool :=
  (excluded_terms query).any (fun term => regexWordSearch term name)

/-- Line 99: the track-count rejection rule
`playlist["tracks"].get("total", 0) < min_tracks`. -/
def track_count_rejects (total : Option Int) (min_tracks : Int) : Bool :=
  total.getD 0 < min_tracks

/-- Line 103: the setlist rejection rule
`"setlist" in playlist.get("name", "").lower()`. -/
def nameHasSetlist (name : String) : Bool :=
  hasSubstr "setlist".data (strLower name).data

/-- Lines 54-59: the four fixed search-query templates, in order. -/
def search_variations (query : String) : List String :=
  [query ++ " playlist", "*" ++ query ++ "*", query ++ " music", query ++ " vibes"]

/-- An entry of `valid_playlists`: the accepted record (which carries
`id = some pid`), its id, and the follower count attached at line 116. -/
structure ValidEntry where
  record : RawPlaylist
  pid : String
  followers : Int
deriving Repr, DecidableEq

/-- Mutable state of the search loop: `valid_playlists`,
`seen_playlist_ids` (kept as a list in acceptance order), and a log of
the playlist ids passed to `get_playlist_details` (one per call). -/
structure SState where
  valid : List ValidEntry
  seen : List String
  calls : List String
deriving Repr, DecidableEq

/-- Lines 80-121: processing of one item of one search response.
`detail` is the `get_playlist_details` collaborator: `none` collapses the
skip-alike outcomes (non-200 detail fetch, missing `"followers"` key, or
a `KeyError` on `["total"]` caught by the handler); `some f` is a
successful fetch with follower total `f`.  Every rejection rule fires in
the source's order and short-circuits. -/
def processPlaylist (query : String) (min_tracks min_followers : Int)
    (detail : String → Option Int) (st : SState) (item : Option RawPlaylist) : SState :=
  match item with
  | none => st
  | some p =>
    match p.name with
    | none => st
    | some nm =>
    match p.tracks with
    | none => st
    | some total =>
      if p.ownerId == some "spotify" then st
      else if nameHasExcludedTerm query nm then st
      else if track_count_rejects total min_tracks then st
      else if nameHasSetlist nm then st
      else
        match p.id with
        | none => st
        | some pid =>
          if pid ∈ st.seen then st
          else
            let st1 : SState := { st with calls := st.calls ++ [pid] }
            match detail pid with
            | none => st1
            | some followers =>
              if followers < min_followers then st1
              else
                { st1 with
                  valid := st1.valid ++ [⟨p, pid, followers⟩],
                  seen := st1.seen ++ [pid] }

/-- Lines 64-121: one search-variant pass.  `resp = none` models a
response lacking the `"playlists"`/`"items"` keys (the `continue` at
line 78); otherwise each item is processed in order. -/
def runVariant (query : String) (min_tracks min_followers : Int)
    (detail : String → Option Int) (st : SState)
    (resp : Option (List (Option RawPlaylist))) : SState :=
  match resp with
  | none => st
  | some items => items.foldl (processPlaylist query min_tracks min_followers detail) st

/-- The full search loop over the four variants, from the empty state.
`searchResp` is the search collaborator, keyed by the variant string. -/
def search_run (query : String) (min_tracks min_followers : Int)
    (searchResp : String → Option (List (Option RawPlaylist)))
    (detail : String → Option Int) : SState :=
  (search_variations query).foldl
    (fun st v => runVariant query min_tracks min_followers detail st (searchResp v))
    ⟨[], [], []⟩

/-- Comparison used by the ranking: `a` may come before `b` exactly when
`b.followers ≤ a.followers` (descending by follower count). -/
def followersGE (a b : ValidEntry) : Prop := b.followers ≤ a.followers

instance : DecidableRel followersGE := fun a b => Int.decLe b.followers a.followers

instance : IsTotal ValidEntry followersGE := ⟨fun a b => Int.le_total b.followers a.followers⟩

instance : IsTrans ValidEntry followersGE := ⟨fun _ _ _ h1 h2 => le_trans h2 h1⟩

/-- Line 124: `sorted(valid_playlists, key=lambda x: x["followers"], reverse=True)`.
Python's sort is stable; a stable descending sort is insertion sort with
the non-strict relation `followersGE` (an inserted element passes over
exactly the strictly larger ones, so ties keep insertion order). -/
def sortValid (l : List ValidEntry) : List ValidEntry :=
  l.insertionSort followersGE

/-- Lines 36-133: the whole `search_playlists`, returning the ranked ids. -/
def search_playlists (query : String) (min_tracks min_followers : Int)
    (searchResp : String → Option (List (Option RawPlaylist)))
    (detail : String → Option Int) : List String :=
  (sortValid (search_run query min_tracks min_followers searchResp detail).valid).map
    (fun e => e.pid)

/-! ### Data model for `get_track_genres` (lines 176-237)

The playlist-tracks response is `Option (Option (List TrackItem))`:
`none` is a falsy response, `some none` a response without an `"items"`
key, `some (some items)` the usual case.  The bulk artist-lookup
collaborator is an oracle `Nat → ArtistResp` giving the response to the
n-th request the loop issues. -/

/-- One element of a track's `"artists"` list.  `id = none` models a
missing `"id"` key (such artists are filtered out at line 204). -/
structure SrcArtist where
  name : String
  id : Option String
deriving Repr, DecidableEq

/-- A track object: `name` is `track.get("name")` (line 200), `artists`
is the optional `"artists"` list (line 203 defaults it to `[]`). -/
structure SrcTrack where
  name : Option String
  artists : Option (List SrcArtist)
deriving Repr, DecidableEq

/-- One item of the track list; `track = none` models a missing or falsy
`"track"` value (skipped at lines 196-198). -/
structure TrackItem where
  track : Option SrcTrack
deriving Repr, DecidableEq

/-- Line 202: the `{"name": ..., "id": ..., "track": track_name}`
dictionary joining an artist to its track. -/
structure ArtistRef where
  name : String
  id : String
  track : Option String
deriving Repr, DecidableEq

/-- Lines 201-205: the `ArtistRef` list of one track — every artist with
a present `"id"` key, all carrying the track's (optional) name. -/
def trackArtistRefs (t : SrcTrack) : List ArtistRef :=
  (t.artists.getD []).filterMap (fun a => a.id.map (fun i => ⟨a.name, i, t.name⟩))

/-- Lines 195-206: `artist_ids` accumulated over the first 200 items. -/
def collectArtistRefs (items : List TrackItem) : List ArtistRef :=
  (items.take 200).foldl
    (fun acc item =>
      match item.track with
      | none => acc
      | some t => acc ++ trackArtistRefs t)
    []

/-- Chunking worker: peel `l[:50]` off and recurse on `l[50:]`.  The
`fuel` argument only bounds the recursion depth (any bound of at least
the number of batches works; `chunk50` passes the list's length), which
keeps the definition structurally recursive and kernel-evaluable; the
`(0, _ :: _)` case is never reached from `chunk50`. -/
def chunkFuel {α : Type} : Nat → List α → List (List α)
  | _, [] => []
  | 0, _ :: _ => []
  | fuel + 1, a :: l => ((a :: l).take 50) :: chunkFuel fuel ((a :: l).drop 50)

/-- Lines 209-210: `artist_ids[i:i+50]` for `i = 0, 50, 100, ...` —
partition a list into consecutive chunks of at most 50. -/
def chunk50 {α : Type} (l : List α) : List (List α) :=
  chunkFuel l.length l

/-- An artist object of a bulk-lookup response body; each field is an
optionally-present JSON key. -/
structure ArtistObj where
  id : Option String
  name : Option String
  genres : Option (List String)
deriving Repr, DecidableEq

/-- A response to one bulk artist-lookup request: HTTP 429 with an
optional integer `Retry-After` header, HTTP 200 with a list of artist
objects (each possibly `null`), or any other status code. -/
inductive ArtistResp where
  | rateLimited (retryAfter : Option Int)
  | ok (artists : List (Option ArtistObj))
  | other (status : Int)
deriving Repr, DecidableEq

/-- The `genres` dictionary: keys are the (optional) track names.  Kept
as an association list in Python dict order. -/
abbrev GenreMap := List (Option String × List String)

/-- Python dict assignment `genres[k] = v`: overwrite in place when the
key exists, append otherwise. -/
def setGenre (m : GenreMap) (k : Option String) (v : List String) : GenreMap :=
  if m.any (fun p => p.1 == k) then
    m.map (fun p => if p.1 == k then (k, v) else p)
  else m ++ [(k, v)]

/-- Lines 226-235: effect of one (possibly null) response artist on the
`genres` dictionary — a null artist is skipped; otherwise every
`ArtistRef` of the current batch with a matching id gets the artist's
genre list (defaulted to `[]`) written under its track name. -/
def applyArtist (batch : List ArtistRef) (m : GenreMap) (a : Option ArtistObj) : GenreMap :=
  match a with
  | none => m
  | some artist =>
    let artistGenres := artist.genres.getD []
    batch.foldl
      (fun m ai => if some ai.id == artist.id then setGenre m ai.track artistGenres else m)
      m

/-- State of the batch loop: the `genres` dictionary, the id lists of
the issued requests (one entry per HTTP request), and the durations
passed to `time.sleep`. -/
structure GState where
  genres : GenreMap
  requests : List (List String)
  sleeps : List Int
deriving Repr, DecidableEq

/-- Lines 209-235: the batch loop.  Each batch issues exactly one
request (its non-empty ids joined at line 211).  On 429 the code sleeps
for the `Retry-After` duration (default 60) and then — via `continue` —
moves on to the NEXT batch; on 200 it applies every response artist; any
other status just falls through to the next batch. -/
def runBatches (respond : Nat → ArtistResp) :
    List (List ArtistRef) → GState → GState
  | [], st => st
  | batch :: rest, st =>
    let ids := (batch.map (fun a => a.id)).filter (fun s => s ≠ "")
    let st1 : GState := { st with requests := st.requests ++ [ids] }
    match respond st.requests.length with
    | .rateLimited retryAfter =>
      runBatches respond rest { st1 with sleeps := st1.sleeps ++ [retryAfter.getD 60] }
    | .ok artists =>
      runBatches respond rest { st1 with genres := artists.foldl (applyArtist batch) st1.genres }
    | .other _ => runBatches respond rest st1

/-- Lines 176-237 with the final state exposed: track extraction,
batching, and the batch loop from the empty state. -/
def get_track_genres_run (tracksResp : Option (Option (List TrackItem)))
    (respond : Nat → ArtistResp) : GState :=
  match tracksResp with
  | none => ⟨[], [], []⟩
  | some none => ⟨[], [], []⟩
  | some (some items) =>
    runBatches respond (chunk50 (collectArtistRefs items)) ⟨[], [], []⟩

/-- The function's return value: the accumulated `genres` dictionary. -/
def get_track_genres (tracksResp : Option (Option (List TrackItem)))
    (respond : Nat → ArtistResp) : GenreMap :=
  (get_track_genres_run tracksResp respond).genres

/-! ### Invariants of the search loop -/

/-- What acceptance at lines 107-118 guarantees for one entry of
`valid_playlists`: the stored id is the record's id, the record carries
a `tracks` object that passed the track-count rule, and the stored
follower count is the detail fetch's answer and meets the threshold. -/
def entryOK (min_tracks min_followers : Int) (detail : String → Option Int)
    (e : ValidEntry) : Prop :=
  e.record.id = some e.pid ∧
  (∃ t, e.record.tracks = some t ∧ track_count_rejects t min_tracks = false) ∧
  detail e.pid = some e.followers ∧
  min_followers ≤ e.followers

/-- Invariant of the search-loop state: `seen_playlist_ids` lists the
accepted ids in order without duplicates, every accepted entry satisfies
`entryOK`, every accepted id was detail-fetched exactly once, and every
fetched id is either accepted or one the detail oracle rejects. -/
structure Inv (min_tracks min_followers : Int) (detail : String → Option Int)
    (st : SState) : Prop where
  seen_eq : st.seen = st.valid.map (fun e => e.pid)
  seen_nodup : st.seen.Nodup
  entries : ∀ e ∈ st.valid, entryOK min_tracks min_followers detail e
  calls_seen : ∀ pid ∈ st.seen, st.calls.count pid = 1
  calls_rej : ∀ pid ∈ st.calls,
    pid ∈ st.seen ∨ detail pid = none ∨ ∃ f, detail pid = some f ∧ f < min_followers

/-! ### Concrete scenarios used as witnesses and counterexamples -/

/-- A well-formed playlist record that passes every filter rule for the
query "morning": 25 tracks, ordinary owner, unexceptional name. -/
def p1rec : RawPlaylist := ⟨some "Sunrise Run", some (some 25), some "user1", some "p1"⟩

/-- A search oracle returning the same single record for every variant. -/
def c3search : String → Option (List (Option RawPlaylist)) := fun _ => some [some p1rec]

/-- A detail oracle whose follower count falls below a threshold of 50. -/
def c3detailLow : String → Option Int := fun _ => some 10

/-- A detail oracle whose follower count meets a threshold of 50. -/
def c3detailHigh : String → Option Int := fun _ => some 100

/-- Accepted entries with followers 50, 200, 10, 200 (in insertion
order), distinguishable by id, for the ranking-stability scenario. -/
def entA : ValidEntry := ⟨⟨some "A", some (some 12), none, some "a"⟩, "a", 50⟩

/-- Second entry of the ranking scenario, 200 followers. -/
def entB : ValidEntry := ⟨⟨some "B", some (some 12), none, some "b"⟩, "b", 200⟩

/-- Third entry of the ranking scenario, 10 followers. -/
def entC : ValidEntry := ⟨⟨some "C", some (some 12), none, some "c"⟩, "c", 10⟩

/-- Fourth entry of the ranking scenario, 200 followers again. -/
def entD : ValidEntry := ⟨⟨some "D", some (some 12), none, some "d"⟩, "d", 200⟩

/-- A track list of 120 tracks, each contributing one artist with a
distinct non-empty id, for the batching scenario. -/
def c7items : List TrackItem :=
  (List.range 120).map (fun n =>
    ⟨some ⟨some "t", some [⟨"artist", some (String.mk (List.replicate (n + 1) 'a'))⟩]⟩⟩)

/-- Bulk-lookup oracle answering HTTP 200 with an empty artist list. -/
def c7respond : Nat → ArtistResp := fun _ => .ok []

/-- The 50 distinct artist ids of the first track of the rate-limit
scenario. -/
def c1xids : List String :=
  (List.range 50).map (fun n => String.mk (List.replicate (n + 1) 'x'))

/-- Rate-limit scenario: track "t1" carries 50 artists (filling the
first batch exactly), track "t2" carries the single artist `y` (the
second batch). -/
def c1items : List TrackItem :=
  [⟨some ⟨some "t1",
      some ((List.range 50).map
        (fun n => ⟨"artist", some (String.mk (List.replicate (n + 1) 'x'))⟩))⟩⟩,
   ⟨some ⟨some "t2", some [⟨"Y", some "y"⟩]⟩⟩]

/-- Bulk-lookup oracle of the rate-limit scenario: the first request is
answered HTTP 429 with `Retry-After: 5`; every later request is answered
HTTP 200 and resolves artist `y` with genres `["g2"]`. -/
def c1respond : Nat → ArtistResp
  | 0 => .rateLimited (some 5)
  | _ + 1 => .ok [some ⟨some "y", some "Y", some ["g2"]⟩]

/-- A single artist reference used to witness the batch-size bound. -/
def oneRef : ArtistRef := ⟨"artist", "a", some "t"⟩

/-- Two track items whose track objects lack a `"name"` key, each with
its own single artist. -/
def c10items : List TrackItem :=
  [⟨some ⟨none, some [⟨"A1", some "id1"⟩]⟩⟩,
   ⟨some ⟨none, some [⟨"A2", some "id2"⟩]⟩⟩]

/-- Bulk-lookup oracle resolving both artists of `c10items` in one 200
response, with genres `["rock"]` and `["jazz"]` respectively. -/
def c10respond : Nat → ArtistResp := fun _ =>
  .ok [some ⟨some "id1", some "A1", some ["rock"]⟩,
       some ⟨some "id2", some "A2", some ["jazz"]⟩]

/-! ### Helper lemmas -/

theorem startsWith_append (l t : List Char) : startsWith l (l ++ t) = true := by
  induction l with
  | nil => rfl
  | cons p ps ih => simp [startsWith, ih]

theorem hasSubstr_append_left (p t : List Char) : hasSubstr p (p ++ t) = true := by
  cases h : p ++ t with
  | nil =>
    rcases List.append_eq_nil.mp h with ⟨rfl, rfl⟩
    rfl
  | cons c cs =>
    simp only [hasSubstr, ← h, startsWith_append, Bool.true_or]

theorem hasSubstr_cons (p : List Char) (c : Char) (s : List Char)
    (h : hasSubstr p s = true) : hasSubstr p (c :: s) = true := by
  simp only [hasSubstr, h, Bool.or_true]

theorem chunkFuel_join {α : Type} :
    ∀ (fuel : Nat) (l : List α), l.length ≤ fuel → List.flatten (chunkFuel fuel l) = l := by
  intro fuel
  induction fuel with
  | zero =>
    intro l h
    rcases List.eq_nil_of_length_eq_zero (Nat.le_zero.mp h) with rfl
    rfl
  | succ fuel ih =>
    intro l h
    cases l with
    | nil => rfl
    | cons a l' =>
      have hlen : ((a :: l').drop 50).length ≤ fuel := by
        simp only [List.length_drop, List.length_cons]
        simp only [List.length_cons] at h
        omega
      simp only [chunkFuel, List.flatten, ih _ hlen, List.take_append_drop]

theorem chunkFuel_length_le {α : Type} :
    ∀ (fuel : Nat) (l : List α), ∀ b ∈ chunkFuel fuel l, b.length ≤ 50 := by
  intro fuel
  induction fuel with
  | zero =>
    intro l b hb
    cases l <;> simp [chunkFuel] at hb
  | succ fuel ih =>
    intro l b hb
    cases l with
    | nil => simp [chunkFuel] at hb
    | cons a l' =>
      simp only [chunkFuel, List.mem_cons] at hb
      rcases hb with rfl | hb
      · exact List.length_take_le 50 (a :: l')
      · exact ih _ b hb

theorem chunk50_join {α : Type} (l : List α) : List.flatten (chunk50 l) = l :=
  chunkFuel_join l.length l le_rfl

theorem chunk50_length_le {α : Type} (l : List α) : ∀ b ∈ chunk50 l, b.length ≤ 50 :=
  chunkFuel_length_le l.length l

theorem pair_get_sublist {α : Type} :
    ∀ (l : List α) (i j : Nat) (hi : i < l.length) (hj : j < l.length), i < j →
      List.Sublist [l.get ⟨i, hi⟩, l.get ⟨j, hj⟩] l := by
  intro l
  induction l with
  | nil => intro i j hi _ _; exact absurd hi (by simp)
  | cons a l' ih =>
    intro i j hi hj hij
    cases i with
    | zero =>
      cases j with
      | zero => omega
      | succ j' =>
        have hj' : j' < l'.length := by simpa using hj
        have hget : (a :: l').get ⟨j' + 1, hj⟩ = l'.get ⟨j', hj'⟩ := rfl
        rw [hget]
        exact List.Sublist.cons₂ a (List.singleton_sublist.mpr (List.get_mem l' j' hj'))
    | succ i' =>
      cases j with
      | zero => omega
      | succ j' =>
        exact (ih i' j' (by simpa using hi) (by simpa using hj) (by omega)).cons a

theorem inv_call_rejected {mt mf : Int} {detail : String → Option Int} {st : SState}
    (h : Inv mt mf detail st) (pid : String) (hseen : pid ∉ st.seen)
    (hrej : detail pid = none ∨ ∃ f, detail pid = some f ∧ f < mf) :
    Inv mt mf detail { st with calls := st.calls ++ [pid] } := by
  refine ⟨h.seen_eq, h.seen_nodup, h.entries, ?_, ?_⟩
  · intro q hq
    have hne : pid ≠ q := fun e => hseen (e ▸ hq)
    simp only [List.count_append, h.calls_seen q hq, List.count_singleton']
    simp [hne]
  · intro q hq
    rcases List.mem_append.mp hq with hq | hq
    · exact h.calls_rej q hq
    · have : q = pid := by simpa using hq
      subst this
      exact Or.inr hrej

theorem inv_accepted {mt mf : Int} {detail : String → Option Int} {st : SState}
    (h : Inv mt mf detail st) (p : RawPlaylist) (total : Option Int) (pid : String) (f : Int)
    (htr : p.tracks = some total) (hid : p.id = some pid)
    (htc : track_count_rejects total mt = false)
    (hseen : pid ∉ st.seen) (hdet : detail pid = some f) (hf : mf ≤ f) :
    Inv mt mf detail
      { valid := st.valid ++ [⟨p, pid, f⟩],
        seen := st.seen ++ [pid],
        calls := st.calls ++ [pid] } := by
  have hpidcalls : pid ∉ st.calls := by
    intro hc
    rcases h.calls_rej pid hc with hs | hnone | ⟨g, hg, hlt⟩
    · exact hseen hs
    · rw [hdet] at hnone; cases hnone
    · rw [hdet] at hg
      injection hg with e
      omega
  constructor
  · simp [h.seen_eq]
  · simp [List.nodup_append, h.seen_nodup, hseen]
  · intro e he
    rcases List.mem_append.mp he with he | he
    · exact h.entries e he
    · have : e = ⟨p, pid, f⟩ := by simpa using he
      subst this
      exact ⟨hid, ⟨total, htr, htc⟩, hdet, hf⟩
  · intro q hq
    rcases List.mem_append.mp hq with hq | hq
    · have hne : pid ≠ q := fun e => hseen (e ▸ hq)
      simp only [List.count_append, h.calls_seen q hq, List.count_singleton']
      simp [hne]
    · have : q = pid := by simpa using hq
      subst this
      have h0 : List.count q st.calls = 0 := List.count_eq_zero.mpr hpidcalls
      simp [List.count_append, h0, List.count_singleton']
  · intro q hq
    rcases List.mem_append.mp hq with hq | hq
    · rcases h.calls_rej q hq with hs | hr
      · exact Or.inl (List.mem_append.mpr (Or.inl hs))
      · exact Or.inr hr
    · have : q = pid := by simpa using hq
      subst this
      exact Or.inl (List.mem_append.mpr (Or.inr (by simp)))

theorem inv_processPlaylist (query : String) {mt mf : Int} {detail : String → Option Int}
    {st : SState} (h : Inv mt mf detail st) (item : Option RawPlaylist) :
    Inv mt mf detail (processPlaylist query mt mf detail st item) := by
  cases item with
  | none => exact h
  | some p =>
    obtain ⟨nm?, tot?, ow?, pid?⟩ := p
    cases nm? with
    | none => exact h
    | some nm =>
      cases tot? with
      | none => exact h
      | some total =>
        dsimp only [processPlaylist]
        split
        next => exact h
        next =>
          split
          next => exact h
          next =>
            split
            next => exact h
            next htc =>
              split
              next => exact h
              next =>
                cases pid? with
                | none => exact h
                | some pid =>
                  dsimp only []
                  by_cases hseen : pid ∈ st.seen
                  · rw [if_pos hseen]; exact h
                  · rw [if_neg hseen]
                    cases hdet : detail pid with
                    | none => exact inv_call_rejected h pid hseen (Or.inl hdet)
                    | some f =>
                      dsimp only []
                      by_cases hf : f < mf
                      · rw [if_pos hf]
                        exact inv_call_rejected h pid hseen (Or.inr ⟨f, hdet, hf⟩)
                      · rw [if_neg hf]
                        exact inv_accepted h _ total pid f rfl rfl
                          (by simpa using htc) hseen hdet (Int.not_lt.mp hf)

theorem mem_valid_processPlaylist (query : String) {mt mf : Int}
    {detail : String → Option Int} {st : SState} (item : Option RawPlaylist)
    (e : ValidEntry) (he : e ∈ (processPlaylist query mt mf detail st item).valid) :
    e ∈ st.valid ∨ item = some e.record := by
  cases item with
  | none => exact Or.inl he
  | some p =>
    obtain ⟨nm?, tot?, ow?, pid?⟩ := p
    cases nm? with
    | none => exact Or.inl he
    | some nm =>
      cases tot? with
      | none => exact Or.inl he
      | some total =>
        dsimp only [processPlaylist] at he
        split at he
        next => exact Or.inl he
        next =>
          split at he
          next => exact Or.inl he
          next =>
            split at he
            next => exact Or.inl he
            next =>
              split at he
              next => exact Or.inl he
              next =>
                cases pid? with
                | none => exact Or.inl he
                | some pid =>
                  dsimp only [] at he
                  by_cases hseen : pid ∈ st.seen
                  · rw [if_pos hseen] at he; exact Or.inl he
                  · rw [if_neg hseen] at he
                    cases hdet : detail pid with
                    | none =>
                      rw [hdet] at he
                      exact Or.inl he
                    | some f =>
                      rw [hdet] at he
                      dsimp only [] at he
                      by_cases hf : f < mf
                      · rw [if_pos hf] at he; exact Or.inl he
                      · rw [if_neg hf] at he
                        rcases List.mem_append.mp he with he | he
                        · exact Or.inl he
                        · have : e = ⟨⟨some nm, some total, ow?, some pid⟩, pid, f⟩ := by
                            simpa using he
                          subst this
                          exact Or.inr rfl

theorem inv_foldl (query : String) {mt mf : Int} {detail : String → Option Int}
    (items : List (Option RawPlaylist)) {st : SState} (h : Inv mt mf detail st) :
    Inv mt mf detail (items.foldl (processPlaylist query mt mf detail) st) := by
  induction items generalizing st with
  | nil => exact h
  | cons it items ih => exact ih (inv_processPlaylist query h it)

theorem inv_runVariant (query : String) {mt mf : Int} {detail : String → Option Int}
    {st : SState} (h : Inv mt mf detail st)
    (resp : Option (List (Option RawPlaylist))) :
    Inv mt mf detail (runVariant query mt mf detail st resp) := by
  cases resp with
  | none => exact h
  | some items => exact inv_foldl query items h

theorem inv_variants (query : String) {mt mf : Int} {detail : String → Option Int}
    (searchResp : String → Option (List (Option RawPlaylist))) :
    ∀ (vs : List String) {st : SState}, Inv mt mf detail st →
      Inv mt mf detail
        (vs.foldl (fun st v => runVariant query mt mf detail st (searchResp v)) st) := by
  intro vs
  induction vs with
  | nil => intro st h; exact h
  | cons v vs ih => intro st h; exact ih (inv_runVariant query h (searchResp v))

theorem inv_search_run (query : String) (mt mf : Int)
    (searchResp : String → Option (List (Option RawPlaylist)))
    (detail : String → Option Int) :
    Inv mt mf detail (search_run query mt mf searchResp detail) := by
  refine inv_variants query searchResp (search_variations query) ?_
  exact ⟨rfl, List.nodup_nil, by simp, by simp, by simp⟩

theorem mem_valid_foldl (query : String) {mt mf : Int} {detail : String → Option Int}
    (items : List (Option RawPlaylist)) {st : SState} (e : ValidEntry)
    (he : e ∈ (items.foldl (processPlaylist query mt mf detail) st).valid) :
    e ∈ st.valid ∨ some e.record ∈ items := by
  induction items generalizing st with
  | nil => exact Or.inl he
  | cons it items ih =>
    rcases ih he with h1 | h1
    · rcases mem_valid_processPlaylist query it e h1 with h2 | h2
      · exact Or.inl h2
      · refine Or.inr ?_
        rw [← h2]
        exact List.mem_cons_self it items
    · exact Or.inr (List.mem_cons_of_mem _ h1)

theorem mem_valid_runVariant (query : String) {mt mf : Int} {detail : String → Option Int}
    {st : SState} (resp : Option (List (Option RawPlaylist))) (e : ValidEntry)
    (he : e ∈ (runVariant query mt mf detail st resp).valid) :
    e ∈ st.valid ∨ ∃ items, resp = some items ∧ some e.record ∈ items := by
  cases resp with
  | none => exact Or.inl he
  | some items =>
    rcases mem_valid_foldl query items e he with h1 | h1
    · exact Or.inl h1
    · exact Or.inr ⟨items, rfl, h1⟩

theorem mem_valid_variants (query : String) {mt mf : Int} {detail : String → Option Int}
    (searchResp : String → Option (List (Option RawPlaylist))) :
    ∀ (vs : List String) {st : SState} (e : ValidEntry),
      e ∈ (vs.foldl (fun st v => runVariant query mt mf detail st (searchResp v)) st).valid →
      e ∈ st.valid ∨ ∃ v ∈ vs, ∃ items, searchResp v = some items ∧ some e.record ∈ items := by
  intro vs
  induction vs with
  | nil => intro st e he; exact Or.inl he
  | cons v vs ih =>
    intro st e he
    rcases ih e he with h1 | ⟨v', hv', rest⟩
    · rcases mem_valid_runVariant query (searchResp v) e h1 with h2 | ⟨items, hi, hm⟩
      · exact Or.inl h2
      · exact Or.inr ⟨v, List.mem_cons_self v vs, items, hi, hm⟩
    · exact Or.inr ⟨v', List.mem_cons_of_mem v hv', rest⟩

theorem mem_valid_search_run (query : String) (mt mf : Int)
    (searchResp : String → Option (List (Option RawPlaylist)))
    (detail : String → Option Int) (e : ValidEntry)
    (he : e ∈ (search_run query mt mf searchResp detail).valid) :
    ∃ v ∈ search_variations query, ∃ items, searchResp v = some items ∧ some e.record ∈ items := by
  rcases mem_valid_variants query searchResp (search_variations query) e he with h1 | h1
  · exact absurd h1 (List.not_mem_nil e)
  · exact h1

/-! ### Claim theorems -/

/-- Claim C1: in the rate-limit scenario (two batches, first answered
HTTP 429 with `Retry-After: 5`, all later requests answered HTTP 200),
the run issues exactly two requests — the rate-limited first batch once
and then the second batch — performs the single backoff of 5, and
returns genres only for the second batch's track: the `continue` at line
222 advances past the rate-limited batch instead of retrying it, so that
batch is dropped, contradicting the claimed retry-same-batch behaviour. -/
theorem C1_rate_limited_batch_dropped :
    (get_track_genres_run (some (some c1items)) c1respond).requests = [c1xids, ["y"]] ∧
    (get_track_genres_run (some (some c1items)) c1respond).sleeps = [5] ∧
    get_track_genres (some (some c1items)) c1respond = [(some "t2", ["g2"])] := by
  decide

/-- Claim C2 (counterexample): with query "night" the term "night" is
removed from `excluded_terms`, so the name "Night Vibes" is NOT rejected
by the excluded-terms rule — refuting the claim that with query "night"
the rule accepts "Nightlife Grooves" and rejects "Night Vibes". -/
theorem C2_counterexample :
    ¬ (nameHasExcludedTerm "night" "Nightlife Grooves" = false ∧
       nameHasExcludedTerm "night" "Night Vibes" = true) := by
  decide

/-- Claim C2 (amended): for a query such as "morning", whose excluded
terms contain "night", the whole-word rule does not reject "Nightlife
Grooves" but rejects "Night Vibes"; with query "night" itself neither
name is rejected, because "night" is excluded from `excluded_terms`. -/
theorem C2_word_boundary_exclusion :
    nameHasExcludedTerm "morning" "Nightlife Grooves" = false ∧
    nameHasExcludedTerm "morning" "Night Vibes" = true ∧
    nameHasExcludedTerm "night" "Nightlife Grooves" = false ∧
    nameHasExcludedTerm "night" "Night Vibes" = false := by
  decide

/-- Claim C3 (counterexample): a record whose detail fetch yields a
follower count below the threshold is never added to the seen set, so
the same id reaching the enrichment site in all four variant passes is
detail-fetched four times — refuting "at most one enrichment call per
playlist id within one invocation". -/
theorem C3_counterexample :
    ¬ ((search_run "morning" 10 50 c3search c3detailLow).calls.count "p1" ≤ 1) := by
  decide

/-- Claim C3 (amended): every id that is ACCEPTED (present in the seen
set) was detail-fetched exactly once during the run, and accepted ids
are emitted without duplication; only ids whose enrichment failed or
fell below the follower threshold can be fetched repeatedly. -/
theorem C3_accepted_id_enriched_once (query : String) (min_tracks min_followers : Int)
    (searchResp : String → Option (List (Option RawPlaylist)))
    (detail : String → Option Int) :
    (∀ pid ∈ (search_run query min_tracks min_followers searchResp detail).seen,
      (search_run query min_tracks min_followers searchResp detail).calls.count pid = 1) ∧
    ((search_run query min_tracks min_followers searchResp detail).valid.map
      (fun e => e.pid)).Nodup := by
  have hinv := inv_search_run query min_tracks min_followers searchResp detail
  refine ⟨hinv.calls_seen, ?_⟩
  rw [← hinv.seen_eq]
  exact hinv.seen_nodup

/-- Witness for C3: in a run where the detail oracle reports 100
followers, id "p1" is accepted and its detail fetch happened exactly
once. -/
theorem C3_witness :
    "p1" ∈ (search_run "morning" 10 50 c3search c3detailHigh).seen ∧
    (search_run "morning" 10 50 c3search c3detailHigh).calls.count "p1" = 1 :=
  ⟨by decide,
   (C3_accepted_id_enriched_once "morning" 10 50 c3search c3detailHigh).1 "p1" (by decide)⟩

/-- Claim C4: the ranked output has no duplicate ids, and every output
id comes from an accepted entry whose record appeared in one of the
variant search responses, carries a `tracks` total of at least
`min_tracks`, and whose fetched follower count is at least
`min_followers`. -/
theorem C4_ranked_output_invariants (query : String) (min_tracks min_followers : Int)
    (searchResp : String → Option (List (Option RawPlaylist)))
    (detail : String → Option Int) :
    (search_playlists query min_tracks min_followers searchResp detail).Nodup ∧
    ∀ pid ∈ search_playlists query min_tracks min_followers searchResp detail,
      ∃ e : ValidEntry, e.pid = pid ∧ e.record.id = some pid ∧
        (∃ t, e.record.tracks = some t ∧ min_tracks ≤ t.getD 0) ∧
        detail pid = some e.followers ∧ min_followers ≤ e.followers ∧
        ∃ v ∈ search_variations query, ∃ items,
          searchResp v = some items ∧ some e.record ∈ items := by
  have hinv := inv_search_run query min_tracks min_followers searchResp detail
  constructor
  · have hperm :
        List.Perm
          ((sortValid (search_run query min_tracks min_followers searchResp detail).valid).map
            (fun e => e.pid))
          ((search_run query min_tracks min_followers searchResp detail).valid.map
            (fun e => e.pid)) :=
      (List.perm_insertionSort followersGE _).map (fun e => e.pid)
    refine hperm.nodup_iff.mpr ?_
    rw [← hinv.seen_eq]
    exact hinv.seen_nodup
  · intro pid hpid
    rcases List.mem_map.mp hpid with ⟨e, he, rfl⟩
    have hev : e ∈ (search_run query min_tracks min_followers searchResp detail).valid :=
      (List.perm_insertionSort followersGE _).mem_iff.mp he
    obtain ⟨hid, ⟨t, htr, htc⟩, hdet, hmf⟩ := hinv.entries e hev
    refine ⟨e, rfl, hid, ⟨t, htr, ?_⟩, hdet, hmf, ?_⟩
    · exact Int.not_lt.mp (of_decide_eq_false htc)
    · exact mem_valid_search_run query min_tracks min_followers searchResp detail e hev

/-- Witness for C4: in the accepting run the output is `["p1"]`, and the
theorem produces the corresponding accepted entry for it. -/
theorem C4_witness :
    ∃ e : ValidEntry, e.pid = "p1" ∧ e.record.id = some "p1" ∧
      (∃ t, e.record.tracks = some t ∧ (10 : Int) ≤ t.getD 0) ∧
      c3detailHigh "p1" = some e.followers ∧ (50 : Int) ≤ e.followers ∧
      ∃ v ∈ search_variations "morning", ∃ items,
        c3search v = some items ∧ some e.record ∈ items :=
  (C4_ranked_output_invariants "morning" 10 50 c3search c3detailHigh).2 "p1" (by decide)

/-- Claim C5: the ranking sort is descending by follower count and
stable — any two entries of the accepted list with equal follower
counts survive as a sublist in their original relative order — and on
followers [50, 200, 10, 200] it yields the two 200-entries first, in
insertion order. -/
theorem C5_stable_ranking :
    (∀ l : List ValidEntry, List.Sorted followersGE (sortValid l)) ∧
    (∀ (l : List ValidEntry) (i j : Nat) (hi : i < l.length) (hj : j < l.length),
      i < j → (l.get ⟨i, hi⟩).followers = (l.get ⟨j, hj⟩).followers →
      List.Sublist [l.get ⟨i, hi⟩, l.get ⟨j, hj⟩] (sortValid l)) ∧
    sortValid [entA, entB, entC, entD] = [entB, entD, entA, entC] := by
  refine ⟨?_, ?_, by decide⟩
  · intro l
    exact List.sorted_insertionSort followersGE l
  · intro l i j hi hj hij heq
    refine List.pair_sublist_insertionSort ?_ (pair_get_sublist l i j hi hj hij)
    exact le_of_eq heq.symm

/-- Witness for C5: positions 1 and 3 of the concrete list have equal
follower counts 200, and they survive the sort as the sublist
`[entB, entD]`, in their insertion order. -/
theorem C5_witness :
    List.Sublist [entB, entD] (sortValid [entA, entB, entC, entD]) :=
  C5_stable_ranking.2.1 [entA, entB, entC, entD] 1 3 (by decide) (by decide)
    (by decide) (by decide)

/-- Claim C6: the track-count rule is boundary-inclusive — a `tracks`
total of `min_tracks - 1` is rejected by the rule and a total of exactly
`min_tracks` is not rejected by it, for every threshold. -/
theorem C6_track_count_boundary (min_tracks : Int) :
    track_count_rejects (some (min_tracks - 1)) min_tracks = true ∧
    track_count_rejects (some min_tracks) min_tracks = false := by
  constructor
  · simp only [track_count_rejects, Option.getD_some, decide_eq_true_eq]
    omega
  · simp only [track_count_rejects, Option.getD_some, decide_eq_false_iff_not]
    omega

/-- Claim C7: the ArtistRef sequence is partitioned into consecutive
batches (their concatenation is the original sequence, so every
reference lands in exactly one batch), every batch holds at most 50
references, and 120 distinct artist ids yield exactly three bulk-lookup
requests of sizes 50, 50 and 20. -/
theorem C7_batching :
    (∀ l : List ArtistRef, List.flatten (chunk50 l) = l) ∧
    (∀ l : List ArtistRef, ∀ b ∈ chunk50 l, b.length ≤ 50) ∧
    (get_track_genres_run (some (some c7items)) c7respond).requests.map List.length
      = [50, 50, 20] := by
  exact ⟨fun l => chunk50_join l, fun l => chunk50_length_le l, by decide⟩

/-- Witness for C7: the singleton reference list is its own single
batch, whose length is within the bound. -/
theorem C7_witness : ([oneRef] : List ArtistRef).length ≤ 50 :=
  C7_batching.2.1 [oneRef] [oneRef] (by decide)

/-- Claim C8: a falsy track-list response, a response without an
`"items"` key, and a response with zero track entries all make
`get_track_genres` return the empty mapping (the model is total, so no
error is raised). -/
theorem C8_empty_tracklist (respond : Nat → ArtistResp) :
    get_track_genres none respond = [] ∧
    get_track_genres (some none) respond = [] ∧
    get_track_genres (some (some ([] : List TrackItem))) respond = [] :=
  ⟨rfl, rfl, rfl⟩

/-- Claim C9: for every query the expansion is exactly the four fixed
templates, in order, and each variant contains the query as a
substring. -/
theorem C9_search_variants (query : String) :
    search_variations query
      = [query ++ " playlist", "*" ++ query ++ "*", query ++ " music", query ++ " vibes"] ∧
    (search_variations query).length = 4 ∧
    ∀ v ∈ search_variations query, hasSubstr query.data v.data = true := by
  refine ⟨rfl, rfl, ?_⟩
  intro v hv
  simp only [search_variations, List.mem_cons, List.not_mem_nil, or_false] at hv
  rcases hv with rfl | rfl | rfl | rfl
  · rw [String.data_append]
    exact hasSubstr_append_left _ _
  · have hdata : ("*" ++ query ++ "*").data = '*' :: (query.data ++ "*".data) := by
      rw [String.data_append, String.data_append]
      rfl
    rw [hdata]
    exact hasSubstr_cons _ _ _ (hasSubstr_append_left _ _)
  · rw [String.data_append]
    exact hasSubstr_append_left _ _
  · rw [String.data_append]
    exact hasSubstr_append_left _ _

/-- Witness for C9: the first variant for "morning" contains "morning"
as a substring. -/
theorem C9_witness :
    hasSubstr "morning".data ("morning" ++ " playlist").data = true :=
  (C9_search_variants "morning").2.2 ("morning" ++ " playlist") (by decide)

/-- Claim C10: a track object without a `"name"` key is not skipped —
each of its artists still yields an ArtistRef whose associated track
name is `none` — and in the concrete two-nameless-track run the
returned mapping is the single `none` key holding the genres of the
last write. -/
theorem C10_nameless_tracks :
    (∀ t : SrcTrack, t.name = none → ∀ r ∈ trackArtistRefs t, r.track = none) ∧
    get_track_genres (some (some c10items)) c10respond = [(none, ["jazz"])] := by
  refine ⟨?_, by decide⟩
  intro t hname r hr
  rcases List.mem_filterMap.mp hr with ⟨a, _, heq⟩
  cases hid : a.id with
  | none =>
    rw [hid] at heq
    cases heq
  | some i =>
    rw [hid] at heq
    rw [Option.map_some'] at heq
    injection heq with heq
    rw [← heq]
    exact hname

/-- Witness for C10: the single artist of a nameless track yields a
reference whose track name is `none`. -/
theorem C10_witness :
    (⟨"A1", "id1", (none : Option String)⟩ : ArtistRef).track = none :=
  C10_nameless_tracks.1 ⟨none, some [⟨"A1", some "id1"⟩]⟩ rfl
    ⟨"A1", "id1", none⟩ (by decide)

end SpotifyModel
